import Mathlib

/-!
# SadModz: the CPU tremolo simulation and the two NIOS test programs

A shallow embedding of `main` in `tremolo_comparison.c` (namespace `Tremolo`), of the
LED counter loop of `NIOS/LED__TEST.c` (namespace `LedTest`) and of the loop of `run_test`
in `NIOS/SDRAM_TEST.c` (namespace `SdramTest`).  For the tremolo:

* The `#define` constants (`MAX_GAIN`, `SHIFT`, `MIN_GAIN`, `FULL_CYCLE_LEN`) are the
  fields of `Config`; `sourceConfig` holds the values written in the file.
* `uint16_t` locals are natural numbers; every store into one reduces modulo `2^16`
  (`toU16`).  Arithmetic is done in `int` (the C integer promotions), modelled by `Int`.
* `int16_t` buffer cells are integers; the store into `audio_out` goes through `toI16`.
* A division by zero while precomputing the increments and an `int` overflow of the
  product `audio_in[n] * current_gain` are undefined behaviour in C; the embedding
  returns `none` there.
-/

namespace Tremolo

/-! ## Machine integers -/

/-- Conversion of an `int` value to `uint16_t`: reduction modulo `2^16`. -/
def toU16 (z : Int) : Nat := (z % 65536).toNat

/-- Conversion of an `int` value to `int16_t` (two's complement wrap-around). -/
def toI16 (z : Int) : Int := (z + 32768) % 65536 - 32768

/-- The least value of a 32-bit `int`. -/
def INT_MIN : Int := -2147483648

/-- The greatest value of a 32-bit `int`. -/
def INT_MAX : Int := 2147483647

/-- The least value of an `int16_t`. -/
def INT16_MIN : Int := -32768

/-- The greatest value of an `int16_t`. -/
def INT16_MAX : Int := 32767

/-- The value is representable in a 32-bit `int`. -/
def fitsInt (z : Int) : Prop := INT_MIN ≤ z ∧ z ≤ INT_MAX

instance (z : Int) : Decidable (fitsInt z) := by unfold fitsInt; infer_instance

/-- The value is representable in an `int16_t`. -/
def fitsInt16 (z : Int) : Prop := INT16_MIN ≤ z ∧ z ≤ INT16_MAX

instance (z : Int) : Decidable (fitsInt16 z) := by unfold fitsInt16; infer_instance

/-! ## Constants and waveform selectors -/

/-- The `#define` constants of `tremolo_comparison.c` that the loop reads. -/
structure Config where
  MAX_GAIN : Nat
  SHIFT : Nat
  MIN_GAIN : Nat
  FULL_CYCLE_LEN : Nat
  deriving DecidableEq

/-- The values the source file defines: `MAX_GAIN 256`, `SHIFT 8`, `MIN_GAIN 64`,
`FULL_CYCLE_LEN 4800`. -/
def sourceConfig : Config :=
  { MAX_GAIN := 256, SHIFT := 8, MIN_GAIN := 64, FULL_CYCLE_LEN := 4800 }

def WAVE_SQUARE : Nat := 0
def WAVE_SAWTOOTH : Nat := 1
def WAVE_TRIANGLE : Nat := 2

/-! ## Precomputed locals (lines 93 and 98-102) -/

/-- `uint16_t half_cycle_len = FULL_CYCLE_LEN / 2;` -/
def half_cycle_len (c : Config) : Nat := toU16 ((c.FULL_CYCLE_LEN : Int) / 2)

/-- `uint16_t gain_range = MAX_GAIN - MIN_GAIN;` -/
def gain_range (c : Config) : Nat := toU16 ((c.MAX_GAIN : Int) - (c.MIN_GAIN : Int))

/-- The two statements
`uint16_t saw_inc = gain_range / half_cycle_len; if (saw_inc == 0) saw_inc = 1;`
as a function of the two `uint16_t` operands; `none` is the division by zero. -/
def saw_inc_of (gainRange halfCycleLen : Nat) : Option Nat :=
  if halfCycleLen = 0 then none
  else
    let q := toU16 ((gainRange : Int) / (halfCycleLen : Int))
    some (if q = 0 then 1 else q)

/-- The two statements
`uint16_t tri_inc = gain_range / (half_cycle_len / 2); if (tri_inc == 0) tri_inc = 1;`
as a function of the two `uint16_t` operands; `none` is the division by zero. -/
def tri_inc_of (gainRange halfCycleLen : Nat) : Option Nat :=
  if halfCycleLen / 2 = 0 then none
  else
    let q := toU16 ((gainRange : Int) / ((halfCycleLen : Int) / 2))
    some (if q = 0 then 1 else q)

/-- The locals that stay fixed during the loop. -/
structure Params where
  half_cycle_len : Nat
  saw_inc : Nat
  tri_inc : Nat
  deriving DecidableEq

/-- Lines 93-102: the set-up before the loop; `none` when a division by zero occurs. -/
def precompute (c : Config) : Option Params :=
  match saw_inc_of (gain_range c) (half_cycle_len c),
        tri_inc_of (gain_range c) (half_cycle_len c) with
  | some si, some ti => some { half_cycle_len := half_cycle_len c, saw_inc := si, tri_inc := ti }
  | _, _ => none

/-! ## The per-sample state machine (lines 107-132) -/

/-- The mutable locals of the loop: `tremolo_counter`, `current_gain` (both `uint16_t`)
and `tri_direction` (`int8_t`, `+1` = up, `-1` = down). -/
structure State where
  tremolo_counter : Nat
  current_gain : Nat
  tri_direction : Int
  deriving DecidableEq

/-- The values of the locals before the first iteration (lines 94, 95, 104). -/
def initState (c : Config) : State :=
  { tremolo_counter := 0, current_gain := toU16 c.MIN_GAIN, tri_direction := 1 }

/-- Lines 109-110: `tremolo_counter++; if (tremolo_counter >= FULL_CYCLE_LEN) tremolo_counter = 0;` -/
def counter_update (c : Config) (counter : Nat) : Nat :=
  let t := toU16 ((counter : Int) + 1)
  if t ≥ c.FULL_CYCLE_LEN then 0 else t

/-- Lines 115-116, `case WAVE_SQUARE`. -/
def square_update (c : Config) (p : Params) (counter : Nat) : Nat :=
  if counter < p.half_cycle_len then toU16 c.MIN_GAIN else toU16 c.MAX_GAIN

/-- Lines 120-122, `case WAVE_SAWTOOTH`. -/
def sawtooth_update (c : Config) (p : Params) (counter gain : Nat) : Nat :=
  let g := if counter = 0 then toU16 c.MIN_GAIN else toU16 ((gain : Int) + (p.saw_inc : Int))
  if g > c.MAX_GAIN then toU16 c.MAX_GAIN else g

/-- Lines 126-127, `case WAVE_TRIANGLE`: the direction update. -/
def triangle_direction (c : Config) (gain : Nat) (dir : Int) : Int :=
  if gain ≥ c.MAX_GAIN then -1
  else if gain ≤ c.MIN_GAIN then 1
  else dir

/-- Lines 128-130, `case WAVE_TRIANGLE`: the gain update, given the direction already
updated. -/
def triangle_gain (c : Config) (p : Params) (gain : Nat) (dir : Int) : Nat :=
  let g := toU16 ((gain : Int) + dir * (p.tri_inc : Int))
  if g > c.MAX_GAIN then toU16 c.MAX_GAIN
  else if g < c.MIN_GAIN then toU16 c.MIN_GAIN
  else g

/-- One iteration of the loop body up to the `switch` (lines 109-132): the counter update
followed by the waveform's gain update.  A selector outside the three cases leaves the
gain unchanged (the `switch` has no `default`). -/
def step (c : Config) (p : Params) (wave : Nat) (s : State) : State :=
  let counter := counter_update c s.tremolo_counter
  if wave = WAVE_SQUARE then
    { tremolo_counter := counter, current_gain := square_update c p counter,
      tri_direction := s.tri_direction }
  else if wave = WAVE_SAWTOOTH then
    { tremolo_counter := counter, current_gain := sawtooth_update c p counter s.current_gain,
      tri_direction := s.tri_direction }
  else if wave = WAVE_TRIANGLE then
    let dir := triangle_direction c s.current_gain s.tri_direction
    { tremolo_counter := counter, current_gain := triangle_gain c p s.current_gain dir,
      tri_direction := dir }
  else
    { tremolo_counter := counter, current_gain := s.current_gain,
      tri_direction := s.tri_direction }

/-- The state after `n` iterations of the loop body, started from `s`. -/
def iter (c : Config) (p : Params) (wave : Nat) : Nat → State → State
  | 0, s => s
  | n + 1, s => step c p wave (iter c p wave n s)

/-- The state after `n` processed samples, from the initial state; `none` when the set-up
divides by zero.  The source runs the loop `NUM_SAMPLES` times; `n` is any prefix length. -/
def run (c : Config) (wave : Nat) (n : Nat) : Option State :=
  match precompute c with
  | none => none
  | some p => some (iter c p wave n (initState c))

/-- The counter after `n` processed samples. -/
def counterAfter (c : Config) (wave : Nat) (n : Nat) : Option Nat :=
  (run c wave n).map State.tremolo_counter

/-- The gain after `n` processed samples (the gain applied to sample `n`, counting from 1). -/
def gainAfter (c : Config) (wave : Nat) (n : Nat) : Option Nat :=
  (run c wave n).map State.current_gain

/-- The direction flag after `n` processed samples. -/
def directionAfter (c : Config) (wave : Nat) (n : Nat) : Option Int :=
  (run c wave n).map State.tri_direction

/-! ## Applying the gain (line 135) -/

/-- Line 135: `audio_out[n] = (audio_in[n] * current_gain) >> SHIFT;`.  The product is
computed in `int`; an overflow, or a shift count of 32 or more, is undefined behaviour
(`none`).  The right shift of a negative product is arithmetic.  The store into the
`int16_t` cell wraps. -/
def apply_gain (c : Config) (sample : Int) (gain : Nat) : Option Int :=
  let prod := sample * (gain : Int)
  if fitsInt prod ∧ c.SHIFT < 32 then some (toI16 (prod >>> c.SHIFT)) else none

/-- The loop of lines 107-136 over an input buffer: each iteration advances the state and
stores one output sample. -/
def process_from (c : Config) (p : Params) (wave : Nat) : State → List Int → Option (List Int)
  | _, [] => some []
  | s, x :: xs =>
    let s1 := step c p wave s
    match apply_gain c x s1.current_gain with
    | none => none
    | some y =>
      match process_from c p wave s1 xs with
      | none => none
      | some ys => some (y :: ys)

/-- The whole computation of `audio_out` from `audio_in`: set-up, then the loop. -/
def process (c : Config) (wave : Nat) (audio_in : List Int) : Option (List Int) :=
  match precompute c with
  | none => none
  | some p => process_from c p wave (initState c) audio_in

/-- The locals the source's constants give: `half_cycle_len = 2400`, `saw_inc = 1`,
`tri_inc = 1`. -/
def sourceParams : Params := { half_cycle_len := 2400, saw_inc := 1, tri_inc := 1 }

/-- The constants of the ten-sample scenario: `FULL_CYCLE_LEN = 10` (so that
`half_cycle_len = 5`), `MIN_GAIN = 64`, `MAX_GAIN = 256`, `SHIFT = 8`. -/
def scenarioConfig : Config :=
  { MAX_GAIN := 256, SHIFT := 8, MIN_GAIN := 64, FULL_CYCLE_LEN := 10 }

/-- The state after `n` samples at the source's constants. -/
def sourceState (wave n : Nat) : State :=
  iter sourceConfig sourceParams wave n (initState sourceConfig)

/-- The triangle profile of the source's constants: up from 64 to 256 in 192 samples, then
down again, with period 384. -/
def triangleProfile (n : Nat) : Nat :=
  if n % 384 ≤ 192 then 64 + n % 384 else 64 + (384 - n % 384)

/-! ## The whole program (lines 85-141) -/

/-- The states `(tremolo_counter, current_gain, tri_direction)` reached at the end of each
iteration of the loop of lines 107-136 while it consumes the input buffer. -/
def states_from (c : Config) (p : Params) (wave : Nat) : State → List Int → List State
  | _, [] => []
  | s, _ :: xs => step c p wave s :: states_from c p wave (step c p wave s) xs

/-- The state sequence of a whole run over an input buffer; `none` when the set-up divides
by zero. -/
def states (c : Config) (wave : Nat) (audio_in : List Int) : Option (List State) :=
  match precompute c with
  | none => none
  | some p => some (states_from c p wave (initState c) audio_in)

/-- `#define NUM_SAMPLES 48000` -/
def NUM_SAMPLES : Nat := 48000

/-- Lines 87-89: `audio_in[i] = (i % 100) - 50;` for `i < NUM_SAMPLES`. -/
def audio_in : List Int :=
  (List.range NUM_SAMPLES).map (fun (i : Nat) => toI16 ((i : Int) % 100 - 50))

/-- The array `audio_out` after the loop of `main` as written: `wave = WAVE_TRIANGLE` and
the constants of the file. -/
def audio_out : Option (List Int) := process sourceConfig WAVE_TRIANGLE audio_in

/-- Lines 139-141: the values `main` prints, `audio_out[0]` to `audio_out[19]`. -/
def printed : Option (List Int) := audio_out.map (List.take 20)

/-! ## Configurations and reference functions used to probe the 16-bit arithmetic -/

/-- A configuration of the constants within 16 bits: `0 ≤ MIN_GAIN < MAX_GAIN ≤ 65535`
and `4 ≤ FULL_CYCLE_LEN ≤ 65535`. -/
def inRange16 (c : Config) : Prop :=
  c.MIN_GAIN < c.MAX_GAIN ∧ c.MAX_GAIN ≤ 65535 ∧ 4 ≤ c.FULL_CYCLE_LEN ∧ c.FULL_CYCLE_LEN ≤ 65535

instance (c : Config) : Decidable (inRange16 c) := by unfold inRange16; infer_instance

/-- Constants with the gain range at the top of the 16-bit range:
`MIN_GAIN = 65534`, `MAX_GAIN = 65535`, `FULL_CYCLE_LEN = 4`. -/
def topConfig : Config :=
  { MAX_GAIN := 65535, SHIFT := 8, MIN_GAIN := 65534, FULL_CYCLE_LEN := 4 }

/-- Constants of a full-depth tremolo: `MIN_GAIN = 0`, `MAX_GAIN = 100`,
`FULL_CYCLE_LEN = 12`, for which the set-up computes `tri_inc = 100 / 3 = 33`. -/
def depthConfig : Config :=
  { MAX_GAIN := 100, SHIFT := 8, MIN_GAIN := 0, FULL_CYCLE_LEN := 12 }

/-- The source's constants with another value of `FULL_CYCLE_LEN`. -/
def withCycleLen (n : Nat) : Config :=
  { MAX_GAIN := 256, SHIFT := 8, MIN_GAIN := 64, FULL_CYCLE_LEN := n }

/-- Saturating clamp of an integer into `[lo, hi]`. -/
def clamp (z lo hi : Int) : Int := if z > hi then hi else if z < lo then lo else z

/-- The triangle update as the specification words it, over the mathematical integers:
the direction is `-1` at `max_gain`, `+1` at `min_gain` and the previous one otherwise;
the gain moves by `direction * tri_increment` and is clamped into `[min_gain, max_gain]`. -/
def spec_triangle_step (min_gain max_gain tri_increment : Int) (g d : Int) : Int :=
  let dir := if g = max_gain then -1 else if g = min_gain then 1 else d
  clamp (g + dir * tri_increment) min_gain max_gain

end Tremolo

/-! # The LED counter test (`NIOS/LED__TEST.c`) -/

namespace LedTest

/-- One iteration of the `while (1)` loop of `main` (lines 25-29) on the `alt_u16`
variable `count`: `if (count >= 0xA) count = 0;` then `count++`. -/
def loop_body (count : Nat) : Nat :=
  let c := if count ≥ 0xA then 0 else count
  (c + 1) % 65536

/-- The value of `count` after `k` iterations, from `count = 0` (line 21). -/
def count_after : Nat → Nat
  | 0 => 0
  | k + 1 => loop_body (count_after k)

/-- The value `count_led` writes to the LED register on its `k`-th call (`k ≥ 1`): the
value of `count` at the end of the `k`-th iteration. -/
def count_led (k : Nat) : Nat := count_after k

end LedTest

/-! # The SDRAM self-test (`NIOS/SDRAM_TEST.c`) -/

namespace SdramTest

/-- Lines 32-36 on the `alt_u8` variable `count`:
`if (count >= 0x1F) count = 0; else count++;`. -/
def update_count (count : Nat) : Nat :=
  if count ≥ 0x1F then 0 else (count + 1) % 256

/-- The value of `count` after `k` iterations of the loop of `run_test`, from `count = 0`;
it is the byte written to memory on the `k`-th iteration (line 39). -/
def count_after : Nat → Nat
  | 0 => 0
  | k + 1 => update_count (count_after k)

/-- Line 42: the store of the value read back into the `alt_u8` variable `read_data`. -/
def read_data (raw : Nat) : Nat := raw % 256

/-- Line 45: `alt_16 display_value = ((read_data & 0x1F) << 5) | (count & 0x1F);` -/
def display_value (readData count : Nat) : Int :=
  Tremolo.toI16 ((((readData &&& 0x1F) <<< 5) ||| (count &&& 0x1F) : Nat) : Int)

/-- Lines 18-23 and 48: the value `display_leds` receives in its `alt_u16` parameter and
writes to the LED register. -/
def display_leds (value : Int) : Nat := Tremolo.toU16 value

/-- The value shown on the LEDs on the `k`-th iteration when the memory read returns
`raw`. -/
def displayed (k raw : Nat) : Nat :=
  display_leds (display_value (read_data raw) (count_after k))

end SdramTest

namespace Tremolo

/-! ## Basic facts about the machine-integer conversions -/

theorem toU16_lt (z : Int) : toU16 z < 65536 := by
  unfold toU16; omega

theorem toU16_of_nat_lt (k : Nat) (h : k < 65536) : toU16 (k : Int) = k := by
  unfold toU16; omega

theorem toI16_of_fits (z : Int) (h : fitsInt16 z) : toI16 z = z := by
  unfold fitsInt16 INT16_MIN INT16_MAX at h
  unfold toI16; omega

theorem precompute_source : precompute sourceConfig = some sourceParams := by decide

theorem run_source (wave n : Nat) :
    run sourceConfig wave n
      = some (iter sourceConfig sourceParams wave n (initState sourceConfig)) := by
  unfold run; rw [precompute_source]

/-! ## The loop body at the source's constants -/

theorem counter_update_source (k : Nat) (hk : k < 4800) :
    counter_update sourceConfig k = if k + 1 = 4800 then 0 else k + 1 := by
  simp only [counter_update, sourceConfig, toU16]
  split_ifs <;> omega

theorem square_update_source (k : Nat) :
    square_update sourceConfig sourceParams k = if k < 2400 then 64 else 256 := by
  simp only [square_update, sourceConfig, sourceParams, toU16]
  split_ifs <;> omega

theorem sawtooth_update_source (k g : Nat) (hg : g ≤ 256) :
    sawtooth_update sourceConfig sourceParams k g = if k = 0 then 64 else min 256 (g + 1) := by
  simp only [sawtooth_update, sourceConfig, sourceParams, toU16]
  split_ifs <;> omega

theorem triangle_direction_source (g : Nat) (d : Int) :
    triangle_direction sourceConfig g d = if 256 ≤ g then -1 else if g ≤ 64 then 1 else d := by
  simp only [triangle_direction, sourceConfig, ge_iff_le]

theorem triangle_gain_source_up (g : Nat) (h1 : 64 ≤ g) (h2 : g ≤ 256) :
    triangle_gain sourceConfig sourceParams g 1 = min 256 (g + 1) := by
  simp only [triangle_gain, sourceConfig, sourceParams, toU16]
  split_ifs <;> omega

theorem triangle_gain_source_down (g : Nat) (h1 : 64 ≤ g) (h2 : g ≤ 256) :
    triangle_gain sourceConfig sourceParams g (-1) = max 64 (g - 1) := by
  simp only [triangle_gain, sourceConfig, sourceParams, toU16]
  split_ifs <;> omega

/-! ## Projections of one step -/

theorem step_counter (c : Config) (p : Params) (wave : Nat) (s : State) :
    (step c p wave s).tremolo_counter = counter_update c s.tremolo_counter := by
  unfold step; split_ifs <;> rfl

theorem step_square_gain (c : Config) (p : Params) (s : State) :
    (step c p WAVE_SQUARE s).current_gain
      = square_update c p (counter_update c s.tremolo_counter) := by
  simp [step]

theorem step_sawtooth_gain (c : Config) (p : Params) (s : State) :
    (step c p WAVE_SAWTOOTH s).current_gain
      = sawtooth_update c p (counter_update c s.tremolo_counter) s.current_gain := by
  simp [step, WAVE_SAWTOOTH, WAVE_SQUARE]

theorem step_triangle_direction (c : Config) (p : Params) (s : State) :
    (step c p WAVE_TRIANGLE s).tri_direction
      = triangle_direction c s.current_gain s.tri_direction := by
  simp [step, WAVE_TRIANGLE, WAVE_SAWTOOTH, WAVE_SQUARE]

theorem step_triangle_gain (c : Config) (p : Params) (s : State) :
    (step c p WAVE_TRIANGLE s).current_gain
      = triangle_gain c p s.current_gain (triangle_direction c s.current_gain s.tri_direction) := by
  simp [step, WAVE_TRIANGLE, WAVE_SAWTOOTH, WAVE_SQUARE]

theorem step_other_gain (c : Config) (p : Params) (wave : Nat) (s : State)
    (h0 : wave ≠ WAVE_SQUARE) (h1 : wave ≠ WAVE_SAWTOOTH) (h2 : wave ≠ WAVE_TRIANGLE) :
    (step c p wave s).current_gain = s.current_gain := by
  simp [step, h0, h1, h2]

/-! ## Closed forms along the run at the source's constants -/

theorem sourceState_zero (wave : Nat) :
    sourceState wave 0 = { tremolo_counter := 0, current_gain := 64, tri_direction := 1 } := by
  simp [sourceState, iter, initState, sourceConfig, toU16]

theorem sourceState_succ (wave n : Nat) :
    sourceState wave (n + 1) = step sourceConfig sourceParams wave (sourceState wave n) := rfl

theorem sourceState_counter (wave n : Nat) :
    (sourceState wave n).tremolo_counter = n % 4800 := by
  induction n with
  | zero => simp [sourceState_zero]
  | succ n ih =>
    rw [sourceState_succ, step_counter, ih, counter_update_source _ (by omega)]
    split_ifs <;> omega

theorem sourceState_square_gain (n : Nat) (hn : 1 ≤ n) :
    (sourceState WAVE_SQUARE n).current_gain = if n % 4800 < 2400 then 64 else 256 := by
  obtain ⟨m, rfl⟩ : ∃ m, n = m + 1 := ⟨n - 1, by omega⟩
  rw [sourceState_succ, step_square_gain, ← step_counter sourceConfig sourceParams WAVE_SQUARE,
    ← sourceState_succ, sourceState_counter, square_update_source]

theorem sourceState_sawtooth_gain (n : Nat) :
    (sourceState WAVE_SAWTOOTH n).current_gain = min 256 (64 + n % 4800) := by
  induction n with
  | zero => simp [sourceState_zero]
  | succ n ih =>
    rw [sourceState_succ, step_sawtooth_gain,
      ← step_counter sourceConfig sourceParams WAVE_SAWTOOTH, ← sourceState_succ,
      sourceState_counter, ih, sawtooth_update_source _ _ (by omega)]
    split_ifs <;> omega

theorem sourceState_triangle (n : Nat) :
    (sourceState WAVE_TRIANGLE n).current_gain = triangleProfile n ∧
    ((sourceState WAVE_TRIANGLE n).tri_direction = 1 ∨
      (sourceState WAVE_TRIANGLE n).tri_direction = -1) ∧
    (0 < n % 384 → n % 384 ≤ 192 → (sourceState WAVE_TRIANGLE n).tri_direction = 1) ∧
    (192 < n % 384 → (sourceState WAVE_TRIANGLE n).tri_direction = -1) := by
  induction n with
  | zero => simp [sourceState_zero, triangleProfile]
  | succ n ih =>
    obtain ⟨hg, hd, hup, hdown⟩ := ih
    have hb : 64 ≤ (sourceState WAVE_TRIANGLE n).current_gain ∧
        (sourceState WAVE_TRIANGLE n).current_gain ≤ 256 := by
      rw [hg]; unfold triangleProfile; split_ifs <;> omega
    rw [sourceState_succ, step_triangle_gain, step_triangle_direction,
      triangle_direction_source]
    unfold triangleProfile at hg ⊢
    by_cases h256 : 256 ≤ (sourceState WAVE_TRIANGLE n).current_gain
    · rw [if_pos h256, triangle_gain_source_down _ hb.1 hb.2]
      split_ifs at hg ⊢ <;> omega
    · rw [if_neg h256]
      by_cases h64 : (sourceState WAVE_TRIANGLE n).current_gain ≤ 64
      · rw [if_pos h64, triangle_gain_source_up _ hb.1 hb.2]
        split_ifs at hg ⊢ <;> omega
      · rw [if_neg h64]
        rcases hd with hd | hd
        · rw [hd, triangle_gain_source_up _ hb.1 hb.2]
          split_ifs at hg ⊢ <;> omega
        · rw [hd, triangle_gain_source_down _ hb.1 hb.2]
          split_ifs at hg ⊢ <;> omega

theorem sourceState_triangle_bounds (n : Nat) :
    64 ≤ (sourceState WAVE_TRIANGLE n).current_gain ∧
      (sourceState WAVE_TRIANGLE n).current_gain ≤ 256 := by
  rw [(sourceState_triangle n).1]; unfold triangleProfile; split_ifs <;> omega

theorem sourceState_other_gain (wave n : Nat)
    (h0 : wave ≠ WAVE_SQUARE) (h1 : wave ≠ WAVE_SAWTOOTH) (h2 : wave ≠ WAVE_TRIANGLE) :
    (sourceState wave n).current_gain = 64 := by
  induction n with
  | zero => simp [sourceState_zero]
  | succ n ih => rw [sourceState_succ, step_other_gain _ _ _ _ h0 h1 h2, ih]

theorem run_source_state (wave n : Nat) : run sourceConfig wave n = some (sourceState wave n) :=
  run_source wave n

theorem gainAfter_source (wave n : Nat) :
    gainAfter sourceConfig wave n = some (sourceState wave n).current_gain := by
  simp [gainAfter, run_source_state]

theorem counterAfter_source (wave n : Nat) :
    counterAfter sourceConfig wave n = some (n % 4800) := by
  simp [counterAfter, run_source_state, sourceState_counter]

theorem directionAfter_source (wave n : Nat) :
    directionAfter sourceConfig wave n = some (sourceState wave n).tri_direction := by
  simp [directionAfter, run_source_state]

/-! ## The cycle counter for an arbitrary cycle length -/

theorem counter_update_mod (c : Config) (k : Nat)
    (h2 : c.FULL_CYCLE_LEN ≤ 65536) (hk : k < c.FULL_CYCLE_LEN) :
    counter_update c k = (k + 1) % c.FULL_CYCLE_LEN := by
  have ht : toU16 ((k : Int) + 1) = (k + 1) % 65536 := by unfold toU16; omega
  unfold counter_update
  rw [ht]
  simp only
  rcases Nat.lt_or_ge (k + 1) c.FULL_CYCLE_LEN with h | h
  · rw [Nat.mod_eq_of_lt (by omega : k + 1 < 65536), if_neg (by omega), Nat.mod_eq_of_lt h]
  · have he : k + 1 = c.FULL_CYCLE_LEN := by omega
    rw [he, Nat.mod_self]
    split_ifs with h3
    · rfl
    · have h4 : c.FULL_CYCLE_LEN % 65536 < c.FULL_CYCLE_LEN := by omega
      have h5 : c.FULL_CYCLE_LEN = 65536 := by
        by_contra hne
        rw [Nat.mod_eq_of_lt (by omega)] at h4
        omega
      rw [h5]

theorem counter_update_wide (c : Config) (k : Nat) (h : 65536 ≤ c.FULL_CYCLE_LEN) :
    counter_update c k = (k + 1) % 65536 := by
  have ht : toU16 ((k : Int) + 1) = (k + 1) % 65536 := by unfold toU16; omega
  unfold counter_update
  rw [ht]
  simp only
  rw [if_neg (by omega)]

theorem iter_counter_mod (c : Config) (p : Params) (wave n : Nat)
    (h1 : 1 ≤ c.FULL_CYCLE_LEN) (h2 : c.FULL_CYCLE_LEN ≤ 65536) :
    (iter c p wave n (initState c)).tremolo_counter = n % c.FULL_CYCLE_LEN := by
  induction n with
  | zero => exact (Nat.zero_mod _).symm
  | succ n ih =>
    show (step c p wave (iter c p wave n (initState c))).tremolo_counter = _
    rw [step_counter, ih, counter_update_mod c _ h2 (Nat.mod_lt _ (by omega)), Nat.mod_add_mod]

theorem iter_counter_wide (c : Config) (p : Params) (wave n : Nat)
    (h : 65536 ≤ c.FULL_CYCLE_LEN) :
    (iter c p wave n (initState c)).tremolo_counter = n % 65536 := by
  induction n with
  | zero => rfl
  | succ n ih =>
    show (step c p wave (iter c p wave n (initState c))).tremolo_counter = _
    rw [step_counter, ih, counter_update_wide c _ h, Nat.mod_add_mod]

theorem counterAfter_of_precompute (c : Config) (p : Params) (wave n : Nat)
    (hp : precompute c = some p) :
    counterAfter c wave n = some (iter c p wave n (initState c)).tremolo_counter := by
  unfold counterAfter run; rw [hp]; rfl

/-! ## The claims -/

/-- C1. With the source's constants and for each of the three waveform selections, the gain
after any number `n` of processed samples, from the initial state, lies in `[64, 256]`. -/
theorem C1_gain_within_bounds (n : Nat) :
    (∃ g, gainAfter sourceConfig WAVE_SQUARE n = some g ∧ 64 ≤ g ∧ g ≤ 256) ∧
    (∃ g, gainAfter sourceConfig WAVE_SAWTOOTH n = some g ∧ 64 ≤ g ∧ g ≤ 256) ∧
    (∃ g, gainAfter sourceConfig WAVE_TRIANGLE n = some g ∧ 64 ≤ g ∧ g ≤ 256) := by
  refine ⟨⟨_, gainAfter_source _ n, ?_⟩, ⟨_, gainAfter_source _ n, ?_⟩,
    ⟨_, gainAfter_source _ n, sourceState_triangle_bounds n⟩⟩
  · rcases Nat.eq_zero_or_pos n with h | h
    · subst h; simp [sourceState_zero]
    · rw [sourceState_square_gain n h]; split_ifs <;> omega
  · rw [sourceState_sawtooth_gain]; omega

/-- C2, counterexample. With `FULL_CYCLE_LEN = 70000` (a positive integer; the set-up
succeeds) the 16-bit counter wraps at `2^16` before it can reach the cycle length: one
update from 65535 gives 0, the counter after 65536 samples is 0 and not
`65536 mod 70000 = 65536`, and the counter after 70000 samples is 4464, not the initial 0. -/
theorem C2_counterexample :
    1 ≤ (withCycleLen 70000).FULL_CYCLE_LEN ∧
    counter_update (withCycleLen 70000) 65535 = 0 ∧
    counterAfter (withCycleLen 70000) WAVE_TRIANGLE 65536 = some 0 ∧
    counterAfter (withCycleLen 70000) WAVE_TRIANGLE 65536
      ≠ some (65536 % (withCycleLen 70000).FULL_CYCLE_LEN) ∧
    counterAfter (withCycleLen 70000) WAVE_TRIANGLE (0 + 70000) = some 4464 ∧
    counterAfter (withCycleLen 70000) WAVE_TRIANGLE (0 + 70000)
      ≠ counterAfter (withCycleLen 70000) WAVE_TRIANGLE 0 := by
  have hp : precompute (withCycleLen 70000)
      = some { half_cycle_len := 35000, saw_inc := 1, tri_inc := 1 } := by decide
  have hc : ∀ n, counterAfter (withCycleLen 70000) WAVE_TRIANGLE n = some (n % 65536) := by
    intro n
    rw [counterAfter_of_precompute _ _ _ n hp, iter_counter_wide _ _ _ n (by decide)]
  refine ⟨by decide, by decide, ?_, ?_, ?_, ?_⟩
  · rw [hc]
  · rw [hc]; decide
  · rw [hc]
  · rw [hc, hc]; decide

/-- C2, amended. For every cycle length `1 ≤ FULL_CYCLE_LEN ≤ 65536` (what the 16-bit
counter can count to), every waveform selector and whatever the other constants and the
precomputed increments are: from the initial state the counter after `n` samples is
`n mod FULL_CYCLE_LEN`; it is below `FULL_CYCLE_LEN`, repeats after `FULL_CYCLE_LEN`
samples, and no shorter positive shift leaves the whole counter sequence unchanged.  When
the set-up succeeds the same holds for the counter of the run. -/
theorem C2_counter_exact_period (c : Config) (p : Params) (wave n : Nat)
    (h1 : 1 ≤ c.FULL_CYCLE_LEN) (h2 : c.FULL_CYCLE_LEN ≤ 65536) :
    (iter c p wave n (initState c)).tremolo_counter = n % c.FULL_CYCLE_LEN ∧
    (iter c p wave n (initState c)).tremolo_counter < c.FULL_CYCLE_LEN ∧
    (iter c p wave (n + c.FULL_CYCLE_LEN) (initState c)).tremolo_counter
      = (iter c p wave n (initState c)).tremolo_counter ∧
    (∀ q, 0 < q → q < c.FULL_CYCLE_LEN →
      ∃ m, (iter c p wave (m + q) (initState c)).tremolo_counter
        ≠ (iter c p wave m (initState c)).tremolo_counter) ∧
    (precompute c = some p →
      counterAfter c wave n = some (n % c.FULL_CYCLE_LEN) ∧
      (∃ k, counterAfter c wave n = some k ∧ k < c.FULL_CYCLE_LEN) ∧
      counterAfter c wave (n + c.FULL_CYCLE_LEN) = counterAfter c wave n ∧
      (∀ q, 0 < q → q < c.FULL_CYCLE_LEN →
        ∃ m, counterAfter c wave (m + q) ≠ counterAfter c wave m)) := by
  have hc := fun m => iter_counter_mod c p wave m h1 h2
  have hlt : n % c.FULL_CYCLE_LEN < c.FULL_CYCLE_LEN := Nat.mod_lt _ (by omega)
  have hmin : ∀ q, 0 < q → q < c.FULL_CYCLE_LEN →
      (0 + q) % c.FULL_CYCLE_LEN ≠ 0 % c.FULL_CYCLE_LEN := by
    intro q hq0 hq
    rw [Nat.zero_add, Nat.mod_eq_of_lt hq, Nat.zero_mod]
    omega
  refine ⟨hc n, by rw [hc]; exact hlt, by rw [hc, hc, Nat.add_mod_right], ?_, ?_⟩
  · intro q hq0 hq
    refine ⟨0, ?_⟩
    rw [hc, hc]
    exact hmin q hq0 hq
  · intro hp
    have hr := fun m => counterAfter_of_precompute c p wave m hp
    refine ⟨by rw [hr, hc], ⟨_, by rw [hr, hc], hlt⟩, by rw [hr, hr, hc, hc, Nat.add_mod_right], ?_⟩
    intro q hq0 hq
    refine ⟨0, ?_⟩
    rw [hr, hr, hc, hc]
    intro h
    exact hmin q hq0 hq (Option.some.inj h)

/-- Witness for the amended C2: the source's constants (`FULL_CYCLE_LEN = 4800`), the
triangle selector and 5000 samples, where the counter is `5000 mod 4800 = 200`. -/
theorem C2_counter_exact_period_witness :
    (iter sourceConfig sourceParams WAVE_TRIANGLE 5000 (initState sourceConfig)).tremolo_counter
      = 200 ∧
    counterAfter sourceConfig WAVE_TRIANGLE 5000 = some 200 ∧
    counterAfter sourceConfig WAVE_TRIANGLE (5000 + 4800)
      = counterAfter sourceConfig WAVE_TRIANGLE 5000 :=
  have h := C2_counter_exact_period sourceConfig sourceParams WAVE_TRIANGLE 5000
    (by decide) (by decide)
  have hr := h.2.2.2.2 precompute_source
  ⟨h.1, hr.1, hr.2.2.1⟩

/-- C3. Square wave: after one loop iteration from any state the gain is `MIN_GAIN` when
the updated counter is below `half_cycle_len` and `MAX_GAIN` otherwise (the constants
being 16-bit values), so it is `MIN_GAIN` exactly when the counter is below
`half_cycle_len`, whatever the previous gain and direction were; with the source's
constants the gain of the `n`-th processed sample (`n ≥ 1`) is 64 when `n mod 4800 < 2400`
and 256 otherwise. -/
theorem C3_square_wave (c : Config) (p : Params) (s : State) (n : Nat)
    (hmin : c.MIN_GAIN < 65536) (hmax : c.MAX_GAIN < 65536) (hn : 1 ≤ n) :
    (step c p WAVE_SQUARE s).current_gain
        = (if (step c p WAVE_SQUARE s).tremolo_counter < p.half_cycle_len
            then c.MIN_GAIN else c.MAX_GAIN) ∧
    (c.MIN_GAIN ≠ c.MAX_GAIN →
      ((step c p WAVE_SQUARE s).current_gain = c.MIN_GAIN ↔
        (step c p WAVE_SQUARE s).tremolo_counter < p.half_cycle_len)) ∧
    (∀ g d, (step c p WAVE_SQUARE
          { tremolo_counter := s.tremolo_counter, current_gain := g, tri_direction := d }).current_gain
        = (step c p WAVE_SQUARE s).current_gain) ∧
    gainAfter sourceConfig WAVE_SQUARE n = some (if n % 4800 < 2400 then 64 else 256) := by
  have hstep : (step c p WAVE_SQUARE s).current_gain
      = (if (step c p WAVE_SQUARE s).tremolo_counter < p.half_cycle_len
          then c.MIN_GAIN else c.MAX_GAIN) := by
    rw [step_square_gain, step_counter]
    unfold square_update
    rw [toU16_of_nat_lt _ hmin, toU16_of_nat_lt _ hmax]
  refine ⟨hstep, ?_, ?_, ?_⟩
  · intro hne
    rw [hstep]
    split_ifs with h
    · exact ⟨fun _ => h, fun _ => rfl⟩
    · exact ⟨fun e => absurd e.symm hne, fun e => absurd e h⟩
  · intro g d
    rw [step_square_gain, step_square_gain]
  · rw [gainAfter_source, sourceState_square_gain n hn]

/-- Witness for C3: the source's constants, the initial state and sample number 2400
(the first sample of the second half-cycle). -/
theorem C3_square_wave_witness :
    (step sourceConfig sourceParams WAVE_SQUARE (initState sourceConfig)).current_gain
        = (if (step sourceConfig sourceParams WAVE_SQUARE
                (initState sourceConfig)).tremolo_counter < sourceParams.half_cycle_len
            then sourceConfig.MIN_GAIN else sourceConfig.MAX_GAIN) ∧
    gainAfter sourceConfig WAVE_SQUARE 2400 = some 256 :=
  have h := C3_square_wave sourceConfig sourceParams (initState sourceConfig) 2400
    (by decide) (by decide) (by decide)
  ⟨h.1, h.2.2.2⟩

/-- C4. Sawtooth, source constants: the gain after `n` samples is
`min 256 (64 + n mod 4800)`; it equals 64 exactly when the counter is 0; a step that wraps
the counter to 0 resets the gain to 64, and every other step does not decrease the gain,
which never exceeds 256 and stays at 256 once it got there (until the next wrap). -/
theorem C4_sawtooth (n : Nat) :
    gainAfter sourceConfig WAVE_SAWTOOTH n = some (min 256 (64 + n % 4800)) ∧
    (∃ g k g1 k1,
      gainAfter sourceConfig WAVE_SAWTOOTH n = some g ∧
      counterAfter sourceConfig WAVE_SAWTOOTH n = some k ∧
      gainAfter sourceConfig WAVE_SAWTOOTH (n + 1) = some g1 ∧
      counterAfter sourceConfig WAVE_SAWTOOTH (n + 1) = some k1 ∧
      (g = 64 ↔ k = 0) ∧
      (k1 = 0 → g1 = 64) ∧
      (k1 ≠ 0 → g ≤ g1) ∧
      (k1 ≠ 0 → g1 = min 256 (g + 1)) ∧
      g ≤ 256 ∧
      (k1 ≠ 0 → g = 256 → g1 = 256)) := by
  have hg := sourceState_sawtooth_gain n
  have hg1 := sourceState_sawtooth_gain (n + 1)
  refine ⟨by rw [gainAfter_source, hg], _, _, _, _, gainAfter_source _ n,
    counterAfter_source _ n, gainAfter_source _ (n + 1), counterAfter_source _ (n + 1), ?_⟩
  rw [hg, hg1]
  omega

/-- C5. Triangle, source constants, along the run from the initial state: a step changes
the direction flag only if the gain before the step is 64 or 256; a step taken at gain 256
sets the direction to falling (`-1`) and a step taken at gain 64 sets it to rising (`+1`);
a step taken at a gain strictly between 64 and 256 keeps the direction.  The flag changes
exactly at a step taken at 256 while rising or at 64 while falling. -/
theorem C5_triangle_direction (n : Nat) :
    ∃ s s1,
      run sourceConfig WAVE_TRIANGLE n = some s ∧
      run sourceConfig WAVE_TRIANGLE (n + 1) = some s1 ∧
      (s1.tri_direction ≠ s.tri_direction → s.current_gain = 64 ∨ s.current_gain = 256) ∧
      (s.current_gain = 256 → s1.tri_direction = -1) ∧
      (s.current_gain = 64 → s1.tri_direction = 1) ∧
      (64 < s.current_gain → s.current_gain < 256 → s1.tri_direction = s.tri_direction) ∧
      (s1.tri_direction ≠ s.tri_direction ↔
        (s.current_gain = 256 ∧ s.tri_direction = 1) ∨
        (s.current_gain = 64 ∧ s.tri_direction = -1)) := by
  refine ⟨_, _, run_source_state _ n, run_source_state _ (n + 1), ?_⟩
  have hb := sourceState_triangle_bounds n
  have hd := (sourceState_triangle n).2.1
  rw [sourceState_succ, step_triangle_direction, triangle_direction_source]
  split_ifs <;> omega

/-- C6. Triangle, source constants: after `n` samples the gain is `64 + k` when
`k = n mod 384 ≤ 192` and `64 + (384 - k)` otherwise; it goes up by one per sample on the
rising half, down by one per sample on the falling half, reaches 256 and 64, and repeats
with period 384. -/
theorem C6_triangle_profile (n : Nat) :
    gainAfter sourceConfig WAVE_TRIANGLE n
      = some (if n % 384 ≤ 192 then 64 + n % 384 else 64 + (384 - n % 384)) ∧
    gainAfter sourceConfig WAVE_TRIANGLE (n + 384) = gainAfter sourceConfig WAVE_TRIANGLE n ∧
    (∃ g g1,
      gainAfter sourceConfig WAVE_TRIANGLE n = some g ∧
      gainAfter sourceConfig WAVE_TRIANGLE (n + 1) = some g1 ∧
      (n % 384 < 192 → g1 = g + 1) ∧
      (192 ≤ n % 384 → g1 + 1 = g)) ∧
    gainAfter sourceConfig WAVE_TRIANGLE (384 * n) = some 64 ∧
    gainAfter sourceConfig WAVE_TRIANGLE (384 * n + 192) = some 256 := by
  have h := fun m => (sourceState_triangle m).1
  refine ⟨by rw [gainAfter_source, h]; rfl, ?_,
    ⟨_, _, gainAfter_source _ n, gainAfter_source _ (n + 1), ?_⟩, ?_, ?_⟩
  · rw [gainAfter_source, gainAfter_source, h, h]
    unfold triangleProfile
    rw [Nat.add_mod_right]
  · rw [h, h]; unfold triangleProfile
    split_ifs <;> omega
  · rw [gainAfter_source, h]; unfold triangleProfile
    simp
  · rw [gainAfter_source, h]; unfold triangleProfile
    rw [Nat.mul_add_mod]
    rfl

/-- C7, counterexample. With the source's constants and the triangle selector (the one
`main` uses) the gain of sample 1 is 65 and the gain of sample `1 + 4800` is 255: the
triangle gain does not repeat after `FULL_CYCLE_LEN = 4800` samples. -/
theorem C7_counterexample :
    1 ≤ 1 ∧
    gainAfter sourceConfig WAVE_TRIANGLE 1 = some 65 ∧
    gainAfter sourceConfig WAVE_TRIANGLE (1 + 4800) = some 255 ∧
    gainAfter sourceConfig WAVE_TRIANGLE (1 + 4800) ≠ gainAfter sourceConfig WAVE_TRIANGLE 1 := by
  have h := fun m => (sourceState_triangle m).1
  have h1 : gainAfter sourceConfig WAVE_TRIANGLE 1 = some 65 := by
    rw [gainAfter_source, h]; rfl
  have h2 : gainAfter sourceConfig WAVE_TRIANGLE (1 + 4800) = some 255 := by
    rw [gainAfter_source, h]; rfl
  refine ⟨le_refl 1, h1, h2, ?_⟩
  rw [h1, h2]
  decide

/-- C7, amended. With the source's constants, `FULL_CYCLE_LEN = 4800` is the number of
samples after which the square and the sawtooth gain repeat: `gain(n + 4800) = gain(n)`
for every `n ≥ 1`.  The triangle gain is not tied to the cycle counter: it repeats every
384 samples, `gain(n + 384) = gain(n)`, and 4800 samples later it is the mirror image,
`gain(n + 4800) = 320 - gain(n)`. -/
theorem C7_modulation_periods (n : Nat) (hn : 1 ≤ n) :
    gainAfter sourceConfig WAVE_SQUARE (n + 4800) = gainAfter sourceConfig WAVE_SQUARE n ∧
    gainAfter sourceConfig WAVE_SAWTOOTH (n + 4800) = gainAfter sourceConfig WAVE_SAWTOOTH n ∧
    gainAfter sourceConfig WAVE_TRIANGLE (n + 384) = gainAfter sourceConfig WAVE_TRIANGLE n ∧
    (∃ g g1, gainAfter sourceConfig WAVE_TRIANGLE n = some g ∧
      gainAfter sourceConfig WAVE_TRIANGLE (n + 4800) = some g1 ∧ g + g1 = 320) := by
  have h := fun m => (sourceState_triangle m).1
  refine ⟨?_, ?_, ?_, ?_⟩
  · rw [gainAfter_source, gainAfter_source, sourceState_square_gain n hn,
      sourceState_square_gain (n + 4800) (by omega), Nat.add_mod_right]
  · rw [gainAfter_source, gainAfter_source, sourceState_sawtooth_gain,
      sourceState_sawtooth_gain, Nat.add_mod_right]
  · rw [gainAfter_source, gainAfter_source, h, h]
    unfold triangleProfile
    rw [Nat.add_mod_right]
  · refine ⟨_, _, gainAfter_source _ n, gainAfter_source _ (n + 4800), ?_⟩
    rw [h, h]; unfold triangleProfile
    split_ifs <;> omega

/-- Witness for the amended C7: sample 1, where the square and sawtooth gains are 64 and
65 both at sample 1 and at sample 4801, and the triangle gain is 65 at samples 1 and 385. -/
theorem C7_modulation_periods_witness :
    gainAfter sourceConfig WAVE_SQUARE (1 + 4800) = gainAfter sourceConfig WAVE_SQUARE 1 ∧
    gainAfter sourceConfig WAVE_SAWTOOTH (1 + 4800) = gainAfter sourceConfig WAVE_SAWTOOTH 1 ∧
    gainAfter sourceConfig WAVE_TRIANGLE (1 + 384) = gainAfter sourceConfig WAVE_TRIANGLE 1 :=
  have h := C7_modulation_periods 1 (le_refl 1)
  ⟨h.1, h.2.1, h.2.2.1⟩

/-- C8. With `FULL_CYCLE_LEN = 10` (hence `half_cycle_len = 5`), `MIN_GAIN = 64`,
`MAX_GAIN = 256`, `SHIFT = 8`, the square wave and ten input samples all equal to 100, the
loop stores 25, 25, 25, 25, 100, 100, 100, 100, 100, 25. -/
theorem C8_square_scenario :
    half_cycle_len scenarioConfig = 5 ∧
    process scenarioConfig WAVE_SQUARE [100, 100, 100, 100, 100, 100, 100, 100, 100, 100]
      = some [25, 25, 25, 25, 100, 100, 100, 100, 100, 25] := by
  decide

/-- Bounds on the `int` product of a 16-bit sample and a gain in `[64, 256]`. -/
theorem product_bounds (x : Int) (g : Nat) (hg1 : 64 ≤ g) (hg2 : g ≤ 256) :
    (0 ≤ x → 0 ≤ x * (g : Int) ∧ x * (g : Int) ≤ 256 * x) ∧
    (x ≤ 0 → 256 * x ≤ x * (g : Int) ∧ x * (g : Int) ≤ 0) := by
  have h1 : (64 : Int) ≤ (g : Int) := by exact_mod_cast hg1
  have h2 : (g : Int) ≤ 256 := by exact_mod_cast hg2
  constructor
  · intro h0
    constructor
    · exact mul_nonneg h0 (by omega)
    · nlinarith
  · intro h0
    constructor
    · nlinarith
    · nlinarith

/-- C9. For a 16-bit sample `x`, a gain `g` in `[64, 256]` and `SHIFT = 8`: the product
`x * g` fits a 32-bit `int`, the stored output is `floor (x * g / 256)` (nothing is lost
by the store into the 16-bit cell), and the output lies between `x` and 0 inclusive, so
its magnitude is at most that of `x`. -/
theorem C9_apply_gain (x : Int) (g : Nat) (hx : fitsInt16 x) (hg1 : 64 ≤ g) (hg2 : g ≤ 256) :
    fitsInt (x * (g : Int)) ∧
    apply_gain sourceConfig x g = some (Int.fdiv (x * (g : Int)) 256) ∧
    fitsInt16 (Int.fdiv (x * (g : Int)) 256) ∧
    (0 ≤ x → 0 ≤ Int.fdiv (x * (g : Int)) 256 ∧ Int.fdiv (x * (g : Int)) 256 ≤ x) ∧
    (x ≤ 0 → x ≤ Int.fdiv (x * (g : Int)) 256 ∧ Int.fdiv (x * (g : Int)) 256 ≤ 0) ∧
    |Int.fdiv (x * (g : Int)) 256| ≤ |x| := by
  obtain ⟨hp, hn⟩ := product_bounds x g hg1 hg2
  unfold fitsInt16 INT16_MIN INT16_MAX at hx
  have hfd : Int.fdiv (x * (g : Int)) 256 = x * (g : Int) / 256 :=
    Int.fdiv_eq_ediv _ (by norm_num)
  rw [hfd]
  generalize hP : x * (g : Int) = P at hp hn ⊢
  have hfit : fitsInt P := by
    unfold fitsInt INT_MIN INT_MAX
    rcases le_total 0 x with h | h
    · have := hp h; omega
    · have := hn h; omega
  have hout : fitsInt16 (P / 256) := by
    unfold fitsInt16 INT16_MIN INT16_MAX
    rcases le_total 0 x with h | h
    · have := hp h; omega
    · have := hn h; omega
  refine ⟨hfit, ?_, hout, ?_, ?_, ?_⟩
  · unfold apply_gain
    simp only [hP]
    rw [if_pos ⟨hfit, by decide⟩]
    have hs : P >>> sourceConfig.SHIFT = P / 256 := by
      rw [Int.shiftRight_eq_div_pow]
      norm_num [sourceConfig]
    rw [hs, toI16_of_fits _ hout]
  · intro h; have := hp h; omega
  · intro h; have := hn h; omega
  · rcases le_total 0 x with h | h
    · have := hp h
      rw [abs_of_nonneg (by omega : (0 : Int) ≤ P / 256), abs_of_nonneg h]; omega
    · have := hn h
      rw [abs_of_nonpos (by omega : P / 256 ≤ (0 : Int)), abs_of_nonpos h]; omega

/-- Witness for C9: the sample `-50` (the first cell of the source's ramp) at gain 65. -/
theorem C9_apply_gain_witness :
    fitsInt16 (-50) ∧ apply_gain sourceConfig (-50) 65 = some (Int.fdiv (-50 * 65) 256) ∧
      Int.fdiv (-50 * 65) 256 = -13 :=
  ⟨by decide, (C9_apply_gain (-50) 65 (by decide) (by decide) (by decide)).2.1, by decide⟩

/-- C10. The precomputed increments are never 0: for a 16-bit `gain_range` and
`half_cycle_len ≥ 2` the set-up divides without fault and yields
`saw_inc = max 1 (gain_range / half_cycle_len)` and
`tri_inc = max 1 (gain_range / (half_cycle_len / 2))` (truncating division), both at
least 1; the same holds for the locals computed from any constants whose
`half_cycle_len` is at least 2; the source's constants give `gain_range = 192`,
`half_cycle_len = 2400` and both increments equal to 1. -/
theorem C10_increments_floor_to_one (gainRange halfCycleLen : Nat) (c : Config)
    (hgr : gainRange < 65536) (hhc : 2 ≤ halfCycleLen) (hc : 2 ≤ half_cycle_len c) :
    saw_inc_of gainRange halfCycleLen = some (max 1 (gainRange / halfCycleLen)) ∧
    tri_inc_of gainRange halfCycleLen = some (max 1 (gainRange / (halfCycleLen / 2))) ∧
    1 ≤ max 1 (gainRange / halfCycleLen) ∧
    1 ≤ max 1 (gainRange / (halfCycleLen / 2)) ∧
    precompute c = some
      { half_cycle_len := half_cycle_len c,
        saw_inc := max 1 (gain_range c / half_cycle_len c),
        tri_inc := max 1 (gain_range c / (half_cycle_len c / 2)) } ∧
    gain_range sourceConfig = 192 ∧ half_cycle_len sourceConfig = 2400 ∧
    saw_inc_of 192 2400 = some 1 ∧ tri_inc_of 192 2400 = some 1 ∧
    precompute sourceConfig
      = some { half_cycle_len := 2400, saw_inc := 1, tri_inc := 1 } := by
  have key : ∀ gr hc : Nat, gr < 65536 → 2 ≤ hc →
      saw_inc_of gr hc = some (max 1 (gr / hc)) ∧
      tri_inc_of gr hc = some (max 1 (gr / (hc / 2))) := by
    intro gr hc h1 h2
    have hq1 : toU16 ((gr : Int) / (hc : Int)) = gr / hc := by
      rw [← Int.ofNat_ediv]
      exact toU16_of_nat_lt _ (lt_of_le_of_lt (Nat.div_le_self _ _) h1)
    have hq2 : toU16 ((gr : Int) / ((hc : Int) / 2)) = gr / (hc / 2) := by
      have : ((hc : Int) / 2) = ((hc / 2 : Nat) : Int) := by norm_cast
      rw [this, ← Int.ofNat_ediv]
      exact toU16_of_nat_lt _ (lt_of_le_of_lt (Nat.div_le_self _ _) h1)
    constructor
    · unfold saw_inc_of
      rw [if_neg (by omega)]
      simp only [hq1]
      congr 1
      split_ifs <;> omega
    · unfold tri_inc_of
      rw [if_neg (by omega)]
      simp only [hq2]
      congr 1
      split_ifs <;> omega
  refine ⟨(key _ _ hgr hhc).1, (key _ _ hgr hhc).2, le_max_left _ _, le_max_left _ _, ?_,
    by decide, by decide, by decide, by decide, by decide⟩
  have hk := key (gain_range c) (half_cycle_len c) (toU16_lt _) hc
  unfold precompute
  rw [hk.1, hk.2]

/-- Witness for C10: `gain_range = 3` against `half_cycle_len = 5` (a range smaller than
the half-cycle), and the scenario constants, whose `half_cycle_len` is 5. -/
theorem C10_increments_floor_to_one_witness :
    saw_inc_of 3 5 = some 1 ∧ tri_inc_of 3 5 = some 1 ∧
    precompute scenarioConfig = some { half_cycle_len := 5, saw_inc := 38, tri_inc := 96 } :=
  have h := C10_increments_floor_to_one 3 5 scenarioConfig (by decide) (by decide) (by decide)
  ⟨h.1, h.2.1, h.2.2.2.2.1⟩

end Tremolo

/-! # Facts about the two NIOS test programs -/

namespace LedTest

theorem led_count_closed (k : Nat) :
    count_after k = if k = 0 then 0 else (k - 1) % 10 + 1 := by
  induction k with
  | zero => rfl
  | succ k ih =>
    show loop_body (count_after k) = _
    rcases Nat.eq_zero_or_pos k with h | h
    · subst h; rfl
    · have hk : count_after k = (k - 1) % 10 + 1 := by rw [ih, if_neg (by omega)]
      clear ih
      rw [hk, if_neg (by omega)]
      simp only [loop_body]
      split_ifs <;> omega

/-- C15. LED counter test: the `k`-th value written to the LED register (`k ≥ 1`) is
`((k - 1) mod 10) + 1`, so the writes run 1, 2, ..., 10, 1, 2, ...; every written value
lies in `[1, 10]` and 0 is never written. -/
theorem C15_led_sequence (k : Nat) (hk : 1 ≤ k) :
    count_led k = (k - 1) % 10 + 1 ∧
    1 ≤ count_led k ∧ count_led k ≤ 10 ∧ count_led k ≠ 0 ∧
    count_led (k + 10) = count_led k := by
  have h1 : count_after k = (k - 1) % 10 + 1 := by
    rw [led_count_closed, if_neg (by omega)]
  have h2 : count_after (k + 10) = (k + 10 - 1) % 10 + 1 := by
    rw [led_count_closed, if_neg (by omega)]
  unfold count_led
  rw [h1, h2]
  omega

/-- Witness for C15: the eleventh write shows 1 again. -/
theorem C15_led_sequence_witness : count_led 11 = 1 ∧ count_led 10 = 10 :=
  ⟨(C15_led_sequence 11 (by decide)).1, (C15_led_sequence 10 (by decide)).1⟩

end LedTest

namespace SdramTest

theorem sdram_count_closed (k : Nat) : count_after k = k % 32 := by
  induction k with
  | zero => rfl
  | succ k ih =>
    show update_count (count_after k) = _
    rw [ih]
    unfold update_count
    split_ifs <;> omega

theorem combine_bits (r c : Nat) (hc : c < 32) :
    ((r &&& 0x1F) <<< 5) ||| (c &&& 0x1F) = 32 * (r % 32) + c := by
  have h1 : r &&& 0x1F = r % 32 := Nat.and_pow_two_sub_one_eq_mod r 5
  have h2 : c &&& 0x1F = c := by
    have := Nat.and_pow_two_sub_one_eq_mod c 5
    simp only [Nat.reducePow, Nat.add_one_sub_one] at this
    rw [this]; omega
  rw [h1, h2, Nat.shiftLeft_eq]
  have := Nat.mul_add_lt_is_or (show c < 2 ^ 5 by simpa using hc) (r % 32)
  simp only [Nat.reducePow] at this ⊢
  rw [Nat.mul_comm (r % 32) 32, ← this]

theorem displayed_closed (k raw : Nat) :
    displayed k raw = 32 * (raw % 32) + k % 32 := by
  unfold displayed display_leds display_value read_data
  rw [sdram_count_closed, combine_bits _ _ (Nat.mod_lt _ (by decide))]
  unfold Tremolo.toI16 Tremolo.toU16
  omega

theorem read_low_bits (raw : Nat) : read_data raw &&& 0x1F = raw % 32 := by
  have h := Nat.and_pow_two_sub_one_eq_mod (read_data raw) 5
  simp only [Nat.reducePow, Nat.add_one_sub_one] at h
  rw [h]; unfold read_data; omega

theorem or_low_bits (a c : Nat) (hc : c < 32) : (a <<< 5) ||| c = 32 * a + c := by
  have h := Nat.mul_add_lt_is_or (show c < 2 ^ 5 by simpa using hc) a
  simp only [Nat.reducePow] at h
  rw [Nat.shiftLeft_eq, Nat.mul_comm a, h]

/-- C16. SDRAM self-test: the byte written on the `k`-th iteration is `k mod 32`, at most
31; the value sent to the LEDs is `((read_data & 0x1F) << 5) | count`, below 1024; when the
byte read back equals the byte written the LEDs show `33 * count` (upper five bits equal
to the lower five), and when the low five bits of the byte read back differ from `count`
the LEDs show something else. -/
theorem C16_sdram_display (k raw : Nat) :
    count_after k = k % 32 ∧ count_after k ≤ 31 ∧
    displayed k raw = ((read_data raw &&& 0x1F) <<< 5) ||| count_after k ∧
    displayed k raw < 1024 ∧
    (read_data raw = count_after k →
      displayed k raw = 33 * count_after k ∧
      displayed k raw / 32 = count_after k ∧ displayed k raw % 32 = count_after k) ∧
    (read_data raw &&& 0x1F ≠ count_after k → displayed k raw ≠ 33 * count_after k) := by
  have hc := sdram_count_closed k
  have hd := displayed_closed k raw
  have hr := read_low_bits raw
  refine ⟨hc, by omega, ?_, by omega, ?_, ?_⟩
  · rw [hr, or_low_bits _ _ (by omega), hd, hc]
  · intro h
    unfold read_data at h
    omega
  · intro h
    rw [hr] at h
    omega

end SdramTest

/-! # The tremolo loop for arbitrary 16-bit constants -/

namespace Tremolo

/-! ## The set-up -/

theorem precompute_of_half_ge_two (c : Config) (h : 2 ≤ half_cycle_len c) :
    precompute c = some
      { half_cycle_len := half_cycle_len c,
        saw_inc := max 1 (gain_range c / half_cycle_len c),
        tri_inc := max 1 (gain_range c / (half_cycle_len c / 2)) } := by
  have hgr : gain_range c < 65536 := toU16_lt _
  have hq1 : toU16 ((gain_range c : Int) / (half_cycle_len c : Int))
      = gain_range c / half_cycle_len c := by
    rw [← Int.ofNat_ediv]
    exact toU16_of_nat_lt _ (lt_of_le_of_lt (Nat.div_le_self _ _) hgr)
  have hq2 : toU16 ((gain_range c : Int) / ((half_cycle_len c : Int) / 2))
      = gain_range c / (half_cycle_len c / 2) := by
    have : ((half_cycle_len c : Int) / 2) = ((half_cycle_len c / 2 : Nat) : Int) := by norm_cast
    rw [this, ← Int.ofNat_ediv]
    exact toU16_of_nat_lt _ (lt_of_le_of_lt (Nat.div_le_self _ _) hgr)
  have h1 : saw_inc_of (gain_range c) (half_cycle_len c)
      = some (max 1 (gain_range c / half_cycle_len c)) := by
    unfold saw_inc_of
    rw [if_neg (by omega)]
    simp only [hq1]
    congr 1
    split_ifs <;> omega
  have h2 : tri_inc_of (gain_range c) (half_cycle_len c)
      = some (max 1 (gain_range c / (half_cycle_len c / 2))) := by
    unfold tri_inc_of
    rw [if_neg (by omega)]
    simp only [hq2]
    congr 1
    split_ifs <;> omega
  unfold precompute
  rw [h1, h2]

theorem precompute_none_of_half_lt_two (c : Config) (h : half_cycle_len c < 2) :
    precompute c = none := by
  have h2 : tri_inc_of (gain_range c) (half_cycle_len c) = none := by
    unfold tri_inc_of
    rw [if_pos (by omega)]
  unfold precompute
  rw [h2]
  cases saw_inc_of (gain_range c) (half_cycle_len c) <;> rfl

theorem half_cycle_len_eq (c : Config) (h : c.FULL_CYCLE_LEN ≤ 131071) :
    half_cycle_len c = c.FULL_CYCLE_LEN / 2 := by
  unfold half_cycle_len toU16
  omega

theorem run_of_precompute (c : Config) (p : Params) (wave n : Nat)
    (hp : precompute c = some p) :
    run c wave n = some (iter c p wave n (initState c)) := by
  unfold run; rw [hp]

theorem gainAfter_of_precompute (c : Config) (p : Params) (wave n : Nat)
    (hp : precompute c = some p) :
    gainAfter c wave n = some (iter c p wave n (initState c)).current_gain := by
  unfold gainAfter; rw [run_of_precompute c p wave n hp]; rfl

/-- C12, counterexample. With `FULL_CYCLE_LEN = 1` (a positive integer, `MIN_GAIN = 64 <
MAX_GAIN = 256`) the first divisor `half_cycle_len` is 0; with `FULL_CYCLE_LEN = 3` the
second divisor `half_cycle_len / 2` is 0; with `FULL_CYCLE_LEN = 131072` the 16-bit
`half_cycle_len` wraps to 0.  In each case the set-up divides by zero. -/
theorem C12_counterexample :
    (1 ≤ (withCycleLen 1).FULL_CYCLE_LEN ∧ (withCycleLen 1).MIN_GAIN < (withCycleLen 1).MAX_GAIN ∧
      half_cycle_len (withCycleLen 1) = 0 ∧ precompute (withCycleLen 1) = none) ∧
    (1 ≤ (withCycleLen 3).FULL_CYCLE_LEN ∧
      half_cycle_len (withCycleLen 3) / 2 = 0 ∧ precompute (withCycleLen 3) = none) ∧
    (1 ≤ (withCycleLen 131072).FULL_CYCLE_LEN ∧
      half_cycle_len (withCycleLen 131072) = 0 ∧ precompute (withCycleLen 131072) = none) := by
  decide

/-- C12, amended. For every `FULL_CYCLE_LEN` from 4 to 131071 (so that
`FULL_CYCLE_LEN / 2` is a 16-bit value of at least 2) and any gain constants, both
divisors `half_cycle_len = FULL_CYCLE_LEN / 2` and `half_cycle_len / 2` are non-zero and
the set-up completes without a division by zero. -/
theorem C12_setup_divisors_nonzero (c : Config)
    (h4 : 4 ≤ c.FULL_CYCLE_LEN) (hu : c.FULL_CYCLE_LEN ≤ 131071) :
    half_cycle_len c = c.FULL_CYCLE_LEN / 2 ∧
    half_cycle_len c ≠ 0 ∧ half_cycle_len c / 2 ≠ 0 ∧
    (∃ si ti, saw_inc_of (gain_range c) (half_cycle_len c) = some si ∧
      tri_inc_of (gain_range c) (half_cycle_len c) = some ti ∧
      precompute c = some { half_cycle_len := half_cycle_len c, saw_inc := si, tri_inc := ti }) := by
  have hh := half_cycle_len_eq c hu
  have h2 : 2 ≤ half_cycle_len c := by rw [hh]; omega
  refine ⟨hh, by omega, by omega, ?_⟩
  have hp := precompute_of_half_ge_two c h2
  unfold precompute at hp
  cases hs : saw_inc_of (gain_range c) (half_cycle_len c) with
  | none => rw [hs] at hp; simp at hp
  | some si =>
    cases ht : tri_inc_of (gain_range c) (half_cycle_len c) with
    | none => rw [hs, ht] at hp; simp at hp
    | some ti =>
      refine ⟨si, ti, rfl, rfl, ?_⟩
      unfold precompute
      rw [hs, ht]

/-- Witness for the amended C12: the smallest admitted cycle length, 4. -/
theorem C12_setup_divisors_nonzero_witness :
    half_cycle_len (withCycleLen 4) = 2 ∧ half_cycle_len (withCycleLen 4) / 2 ≠ 0 :=
  have h := C12_setup_divisors_nonzero (withCycleLen 4) (by decide) (by decide)
  ⟨h.1, h.2.2.1⟩

/-! ## The gain bounds for 16-bit constants -/

theorem square_update_bounds (c : Config) (p : Params) (k : Nat)
    (h : c.MIN_GAIN ≤ c.MAX_GAIN) (hM : c.MAX_GAIN ≤ 65535) :
    c.MIN_GAIN ≤ square_update c p k ∧ square_update c p k ≤ c.MAX_GAIN := by
  unfold square_update
  rw [toU16_of_nat_lt _ (by omega), toU16_of_nat_lt _ (by omega)]
  split_ifs <;> omega

theorem triangle_gain_bounds (c : Config) (p : Params) (g : Nat) (d : Int)
    (h : c.MIN_GAIN ≤ c.MAX_GAIN) (hM : c.MAX_GAIN ≤ 65535) :
    c.MIN_GAIN ≤ triangle_gain c p g d ∧ triangle_gain c p g d ≤ c.MAX_GAIN := by
  unfold triangle_gain
  rw [toU16_of_nat_lt _ (by omega), toU16_of_nat_lt _ (by omega)]
  generalize toU16 ((g : Int) + d * (p.tri_inc : Int)) = t
  simp only
  split_ifs <;> omega

theorem sawtooth_update_bounds (c : Config) (p : Params) (k g : Nat)
    (h : c.MIN_GAIN ≤ c.MAX_GAIN) (hM : c.MAX_GAIN ≤ 65535)
    (hg1 : c.MIN_GAIN ≤ g) (hg2 : g ≤ c.MAX_GAIN) (hw : c.MAX_GAIN + p.saw_inc ≤ 65535) :
    c.MIN_GAIN ≤ sawtooth_update c p k g ∧ sawtooth_update c p k g ≤ c.MAX_GAIN := by
  unfold sawtooth_update
  rw [toU16_of_nat_lt _ (by omega), toU16_of_nat_lt _ (by omega)]
  have ht : toU16 ((g : Int) + (p.saw_inc : Int)) = g + p.saw_inc := by
    unfold toU16; omega
  rw [ht]
  simp only
  split_ifs <;> omega

theorem initState_gain (c : Config) (hM : c.MIN_GAIN ≤ 65535) :
    (initState c).current_gain = c.MIN_GAIN := by
  unfold initState
  exact toU16_of_nat_lt _ (by omega)

theorem iter_square_bounds (c : Config) (p : Params) (n : Nat)
    (h : c.MIN_GAIN ≤ c.MAX_GAIN) (hM : c.MAX_GAIN ≤ 65535) :
    c.MIN_GAIN ≤ (iter c p WAVE_SQUARE n (initState c)).current_gain ∧
      (iter c p WAVE_SQUARE n (initState c)).current_gain ≤ c.MAX_GAIN := by
  cases n with
  | zero =>
    show c.MIN_GAIN ≤ (initState c).current_gain ∧ (initState c).current_gain ≤ c.MAX_GAIN
    rw [initState_gain c (by omega)]; omega
  | succ n =>
    show c.MIN_GAIN ≤ (step c p WAVE_SQUARE _).current_gain ∧
      (step c p WAVE_SQUARE _).current_gain ≤ c.MAX_GAIN
    rw [step_square_gain]
    exact square_update_bounds c p _ h hM

theorem iter_triangle_bounds (c : Config) (p : Params) (n : Nat)
    (h : c.MIN_GAIN ≤ c.MAX_GAIN) (hM : c.MAX_GAIN ≤ 65535) :
    c.MIN_GAIN ≤ (iter c p WAVE_TRIANGLE n (initState c)).current_gain ∧
      (iter c p WAVE_TRIANGLE n (initState c)).current_gain ≤ c.MAX_GAIN := by
  cases n with
  | zero =>
    show c.MIN_GAIN ≤ (initState c).current_gain ∧ (initState c).current_gain ≤ c.MAX_GAIN
    rw [initState_gain c (by omega)]; omega
  | succ n =>
    show c.MIN_GAIN ≤ (step c p WAVE_TRIANGLE _).current_gain ∧
      (step c p WAVE_TRIANGLE _).current_gain ≤ c.MAX_GAIN
    rw [step_triangle_gain]
    exact triangle_gain_bounds c p _ _ h hM

theorem iter_sawtooth_bounds (c : Config) (p : Params) (n : Nat)
    (h : c.MIN_GAIN ≤ c.MAX_GAIN) (hM : c.MAX_GAIN ≤ 65535)
    (hw : c.MAX_GAIN + p.saw_inc ≤ 65535) :
    c.MIN_GAIN ≤ (iter c p WAVE_SAWTOOTH n (initState c)).current_gain ∧
      (iter c p WAVE_SAWTOOTH n (initState c)).current_gain ≤ c.MAX_GAIN := by
  induction n with
  | zero =>
    show c.MIN_GAIN ≤ (initState c).current_gain ∧ (initState c).current_gain ≤ c.MAX_GAIN
    rw [initState_gain c (by omega)]; omega
  | succ n ih =>
    show c.MIN_GAIN ≤ (step c p WAVE_SAWTOOTH _).current_gain ∧
      (step c p WAVE_SAWTOOTH _).current_gain ≤ c.MAX_GAIN
    rw [step_sawtooth_gain]
    exact sawtooth_update_bounds c p _ _ h hM ih.1 ih.2 hw

theorem precompute_of_inRange16 (c : Config) (hc : inRange16 c) :
    ∃ p, precompute c = some p := by
  unfold inRange16 at hc
  have hh := half_cycle_len_eq c (by omega)
  exact ⟨_, precompute_of_half_ge_two c (by rw [hh]; omega)⟩

/-- C11. Evaluation of the code at constants inside the claimed range, `MIN_GAIN = 65534`,
`MAX_GAIN = 65535`, `FULL_CYCLE_LEN = 4`, sawtooth: the set-up gives `saw_inc = 1`, the
gain after one sample is 65535 and after two samples it is 0, below `MIN_GAIN`, because
`current_gain += saw_inc` wraps modulo `2^16` before the test `current_gain > MAX_GAIN`.
For all constants of the claimed range the square and the triangle gain do stay within
`[MIN_GAIN, MAX_GAIN]`, and so does the sawtooth gain whenever
`MAX_GAIN + saw_inc ≤ 65535`. -/
theorem C11_sawtooth_wraps_below_min :
    (inRange16 topConfig ∧
      precompute topConfig = some { half_cycle_len := 2, saw_inc := 1, tri_inc := 1 } ∧
      gainAfter topConfig WAVE_SAWTOOTH 1 = some 65535 ∧
      gainAfter topConfig WAVE_SAWTOOTH 2 = some 0 ∧
      0 < topConfig.MIN_GAIN) ∧
    (∀ c : Config, inRange16 c → ∀ n, ∃ g, gainAfter c WAVE_SQUARE n = some g ∧
      c.MIN_GAIN ≤ g ∧ g ≤ c.MAX_GAIN) ∧
    (∀ c : Config, inRange16 c → ∀ n, ∃ g, gainAfter c WAVE_TRIANGLE n = some g ∧
      c.MIN_GAIN ≤ g ∧ g ≤ c.MAX_GAIN) ∧
    (∀ (c : Config) (p : Params), inRange16 c → precompute c = some p →
      c.MAX_GAIN + p.saw_inc ≤ 65535 →
      ∀ n, ∃ g, gainAfter c WAVE_SAWTOOTH n = some g ∧ c.MIN_GAIN ≤ g ∧ g ≤ c.MAX_GAIN) := by
  refine ⟨by decide, ?_, ?_, ?_⟩
  · intro c hc n
    obtain ⟨p, hp⟩ := precompute_of_inRange16 c hc
    unfold inRange16 at hc
    exact ⟨_, gainAfter_of_precompute c p _ n hp, iter_square_bounds c p n (by omega) (by omega)⟩
  · intro c hc n
    obtain ⟨p, hp⟩ := precompute_of_inRange16 c hc
    unfold inRange16 at hc
    exact ⟨_, gainAfter_of_precompute c p _ n hp, iter_triangle_bounds c p n (by omega) (by omega)⟩
  · intro c p hc hp hw n
    unfold inRange16 at hc
    exact ⟨_, gainAfter_of_precompute c p _ n hp,
      iter_sawtooth_bounds c p n (by omega) (by omega) hw⟩

/-! ## The triangle update against its integer reference -/

theorem triangle_direction_eq_spec (c : Config) (g : Nat) (d : Int)
    (hg1 : c.MIN_GAIN ≤ g) (hg2 : g ≤ c.MAX_GAIN) :
    triangle_direction c g d
      = if (g : Int) = (c.MAX_GAIN : Int) then -1
        else if (g : Int) = (c.MIN_GAIN : Int) then 1 else d := by
  unfold triangle_direction
  split_ifs <;> first | rfl | omega

theorem triangle_gain_no_wrap (c : Config) (p : Params) (g : Nat) (dir : Int)
    (hM : c.MAX_GAIN ≤ 65535) (hm : c.MIN_GAIN ≤ c.MAX_GAIN)
    (h0 : 0 ≤ (g : Int) + dir * (p.tri_inc : Int))
    (h1 : (g : Int) + dir * (p.tri_inc : Int) ≤ 65535) :
    (triangle_gain c p g dir : Int)
      = clamp ((g : Int) + dir * (p.tri_inc : Int)) (c.MIN_GAIN : Int) (c.MAX_GAIN : Int) := by
  unfold triangle_gain clamp
  rw [toU16_of_nat_lt _ (by omega), toU16_of_nat_lt _ (by omega)]
  generalize (g : Int) + dir * (p.tri_inc : Int) = z at h0 h1 ⊢
  have hz : ((toU16 z : Nat) : Int) = z := by unfold toU16; omega
  simp only
  split_ifs <;> omega

/-- C13. Evaluation of the code at `MIN_GAIN = 0`, `MAX_GAIN = 100`,
`FULL_CYCLE_LEN = 12` (set-up: `tri_inc = 33`), triangle: after 7 samples the gain is 1
with the direction falling, and the next step gives 100 (`MAX_GAIN`), whereas the clamp of
`1 - 33` over the integers is 0 (`MIN_GAIN`): the 16-bit store wraps `-32` to 65504 before
the tests of lines 129-130.  Whenever `gain + direction * tri_inc` lies in `[0, 65535]`
the step does equal the integer clamp. -/
theorem C13_triangle_step_wraps :
    (inRange16 depthConfig ∧
      precompute depthConfig = some { half_cycle_len := 6, saw_inc := 16, tri_inc := 33 } ∧
      gainAfter depthConfig WAVE_TRIANGLE 7 = some 1 ∧
      directionAfter depthConfig WAVE_TRIANGLE 7 = some (-1) ∧
      gainAfter depthConfig WAVE_TRIANGLE 8 = some 100 ∧
      triangle_gain depthConfig { half_cycle_len := 6, saw_inc := 16, tri_inc := 33 } 1
        (triangle_direction depthConfig 1 (-1)) = 100 ∧
      spec_triangle_step 0 100 33 1 (-1) = 0) ∧
    (∀ (c : Config) (p : Params) (g : Nat) (d : Int),
      c.MIN_GAIN < c.MAX_GAIN → c.MAX_GAIN ≤ 65535 → c.MIN_GAIN ≤ g → g ≤ c.MAX_GAIN →
      0 ≤ (g : Int) + triangle_direction c g d * (p.tri_inc : Int) →
      (g : Int) + triangle_direction c g d * (p.tri_inc : Int) ≤ 65535 →
      (triangle_gain c p g (triangle_direction c g d) : Int)
        = spec_triangle_step c.MIN_GAIN c.MAX_GAIN p.tri_inc g d) := by
  refine ⟨by decide, ?_⟩
  intro c p g d hlt hM hg1 hg2 h0 h1
  rw [triangle_gain_no_wrap c p g _ hM (by omega) h0 h1]
  unfold spec_triangle_step
  rw [triangle_direction_eq_spec c g d hg1 hg2]

/-! ## The loop over an input buffer -/

theorem iter_succ_left (c : Config) (p : Params) (wave n : Nat) (s : State) :
    iter c p wave (n + 1) s = iter c p wave n (step c p wave s) := by
  induction n with
  | zero => rfl
  | succ n ih =>
    show step c p wave (iter c p wave (n + 1) s) = step c p wave (iter c p wave n (step c p wave s))
    rw [ih]

theorem initState_gain_lt (c : Config) : (initState c).current_gain < 65536 :=
  toU16_lt (c.MIN_GAIN : Int)

theorem step_gain_lt (c : Config) (p : Params) (wave : Nat) (s : State)
    (hs : s.current_gain < 65536) : (step c p wave s).current_gain < 65536 := by
  have h1 := toU16_lt (c.MIN_GAIN : Int)
  have h2 := toU16_lt (c.MAX_GAIN : Int)
  unfold step
  split_ifs
  · show square_update c p _ < 65536
    unfold square_update; split_ifs <;> assumption
  · show sawtooth_update c p _ _ < 65536
    unfold sawtooth_update
    have h3 := toU16_lt ((s.current_gain : Int) + (p.saw_inc : Int))
    simp only
    split_ifs <;> assumption
  · show triangle_gain c p _ _ < 65536
    unfold triangle_gain
    have h3 := toU16_lt ((s.current_gain : Int)
      + triangle_direction c s.current_gain s.tri_direction * (p.tri_inc : Int))
    simp only
    split_ifs <;> assumption
  · exact hs

theorem apply_gain_typed (c : Config) (x : Int) (g : Nat)
    (hs : c.SHIFT < 32) (hx : fitsInt16 x) (hg : g < 65536) :
    apply_gain c x g = some (toI16 ((x * (g : Int)) >>> c.SHIFT)) := by
  have hfit : fitsInt (x * (g : Int)) := by
    unfold fitsInt16 INT16_MIN INT16_MAX at hx
    unfold fitsInt INT_MIN INT_MAX
    have hg0 : (0 : Int) ≤ (g : Int) := Int.ofNat_nonneg g
    have hg1 : (g : Int) ≤ 65535 := by omega
    constructor <;> nlinarith
  unfold apply_gain
  simp only
  rw [if_pos ⟨hfit, hs⟩]

theorem process_from_typed (c : Config) (p : Params) (wave : Nat) (hs : c.SHIFT < 32) :
    ∀ (xs : List Int) (s : State), s.current_gain < 65536 → (∀ x ∈ xs, fitsInt16 x) →
      ∃ ys, process_from c p wave s xs = some ys ∧ ys.length = xs.length ∧
        ∀ n x, xs[n]? = some x →
          ys[n]? = some (toI16 ((x * ((iter c p wave (n + 1) s).current_gain : Int)) >>> c.SHIFT)) := by
  intro xs
  induction xs with
  | nil =>
    intro s _ _
    exact ⟨[], rfl, rfl, by intro n x h; simp at h⟩
  | cons a xs ih =>
    intro s hg hx
    have hg1 := step_gain_lt c p wave s hg
    obtain ⟨ys, hys, hlen, hidx⟩ := ih (step c p wave s) hg1
      (fun x hxm => hx x (List.mem_cons_of_mem _ hxm))
    have ha := apply_gain_typed c a _ hs (hx a (List.mem_cons_self _ _)) hg1
    refine ⟨toI16 ((a * ((step c p wave s).current_gain : Int)) >>> c.SHIFT) :: ys, ?_,
      by simp [hlen], ?_⟩
    · show (match apply_gain c a (step c p wave s).current_gain with
        | none => none
        | some y =>
          match process_from c p wave (step c p wave s) xs with
          | none => none
          | some ys => some (y :: ys)) = _
      rw [ha, hys]
    · intro n x hn
      cases n with
      | zero =>
        simp only [List.getElem?_cons_zero, Option.some.injEq] at hn ⊢
        rw [hn]; rfl
      | succ n =>
        simp only [List.getElem?_cons_succ] at hn ⊢
        rw [iter_succ_left]
        exact hidx n x hn

theorem states_from_congr (c : Config) (p : Params) (wave : Nat) :
    ∀ (xs ys : List Int) (s : State), xs.length = ys.length →
      states_from c p wave s xs = states_from c p wave s ys := by
  intro xs
  induction xs with
  | nil =>
    intro ys s h
    cases ys with
    | nil => rfl
    | cons b ys => simp at h
  | cons a xs ih =>
    intro ys s h
    cases ys with
    | nil => simp at h
    | cons b ys =>
      show step c p wave s :: states_from c p wave (step c p wave s) xs
        = step c p wave s :: states_from c p wave (step c p wave s) ys
      rw [ih ys (step c p wave s) (by simpa using h)]

theorem states_from_getElem (c : Config) (p : Params) (wave : Nat) :
    ∀ (xs : List Int) (s : State) (n : Nat), n < xs.length →
      (states_from c p wave s xs)[n]? = some (iter c p wave (n + 1) s) := by
  intro xs
  induction xs with
  | nil => intro s n h; simp at h
  | cons a xs ih =>
    intro s n h
    cases n with
    | zero =>
      show (step c p wave s :: states_from c p wave (step c p wave s) xs)[0]? = _
      rw [List.getElem?_cons_zero]; rfl
    | succ n =>
      show (step c p wave s :: states_from c p wave (step c p wave s) xs)[n + 1]? = _
      rw [List.getElem?_cons_succ, iter_succ_left]
      exact ih _ n (by simpa using h)

theorem process_typed (c : Config) (p : Params) (wave : Nat) (xs : List Int)
    (hp : precompute c = some p) (hs : c.SHIFT < 32) (hx : ∀ x ∈ xs, fitsInt16 x) :
    ∃ out, process c wave xs = some out ∧ out.length = xs.length ∧
      ∀ n x, xs[n]? = some x →
        out[n]? = some (toI16
          ((x * ((iter c p wave (n + 1) (initState c)).current_gain : Int)) >>> c.SHIFT)) := by
  obtain ⟨out, h1, h2, h3⟩ :=
    process_from_typed c p wave hs xs (initState c) (initState_gain_lt c) hx
  refine ⟨out, ?_, h2, h3⟩
  unfold process
  rw [hp]
  exact h1

theorem outputs_agree (f : Nat → Int → Int) (xs ys out1 out2 : List Int)
    (hlen : xs.length = ys.length) (h1len : out1.length = xs.length)
    (h2len : out2.length = ys.length)
    (h1 : ∀ (n : Nat) (x : Int), xs[n]? = some x → out1[n]? = some (f n x))
    (h2 : ∀ (n : Nat) (x : Int), ys[n]? = some x → out2[n]? = some (f n x)) :
    ∀ n : Nat, xs[n]? = ys[n]? → out1[n]? = out2[n]? := by
  intro n hn
  cases hx : xs[n]? with
  | none =>
    have hl : xs.length ≤ n := List.getElem?_eq_none_iff.mp hx
    rw [List.getElem?_eq_none (by omega), List.getElem?_eq_none (by omega)]
  | some x =>
    rw [h1 n x hx, h2 n x (by rw [← hn, hx])]

/-- C14. The gain sequence does not depend on the audio data: for every selector and any
two 16-bit input buffers of the same length, the two runs visit the same sequence of
`(counter, gain, direction)` states (the `n`-th being the state after `n + 1` loop
iterations); both runs complete, `output[n]` is `(input[n] * gain(n + 1)) >> SHIFT` with
`gain(n + 1)` fixed by the constants, the selector and `n`; two inputs that agree at index
`n` give the same `output[n]`, and overwriting `input[k]` leaves every `output[n]` with
`n ≠ k` unchanged. -/
theorem C14_gain_independent_of_audio (c : Config) (p : Params) (wave : Nat)
    (xs ys : List Int) (hp : precompute c = some p) (hs : c.SHIFT < 32)
    (hx : ∀ x ∈ xs, fitsInt16 x) (hy : ∀ y ∈ ys, fitsInt16 y)
    (hlen : xs.length = ys.length) :
    states c wave xs = states c wave ys ∧
    (∃ tr, states c wave xs = some tr ∧ ∀ n : Nat, n < xs.length → tr[n]? = run c wave (n + 1)) ∧
    (∃ out1 out2, process c wave xs = some out1 ∧ process c wave ys = some out2 ∧
      out1.length = xs.length ∧ out2.length = ys.length ∧
      (∀ (n : Nat) (x : Int), xs[n]? = some x → ∃ g, gainAfter c wave (n + 1) = some g ∧
        out1[n]? = some (toI16 ((x * (g : Int)) >>> c.SHIFT))) ∧
      (∀ n : Nat, xs[n]? = ys[n]? → out1[n]? = out2[n]?) ∧
      (∀ k v, fitsInt16 v → ∃ out3, process c wave (xs.set k v) = some out3 ∧
        ∀ n : Nat, n ≠ k → out3[n]? = out1[n]?)) := by
  refine ⟨?_, ?_, ?_⟩
  · unfold states
    rw [hp]
    exact congrArg some (states_from_congr c p wave xs ys (initState c) hlen)
  · refine ⟨states_from c p wave (initState c) xs, by unfold states; rw [hp], ?_⟩
    intro n hn
    rw [run_of_precompute c p wave (n + 1) hp]
    exact states_from_getElem c p wave xs (initState c) n hn
  · obtain ⟨out1, ho1, hl1, hf1⟩ := process_typed c p wave xs hp hs hx
    obtain ⟨out2, ho2, hl2, hf2⟩ := process_typed c p wave ys hp hs hy
    refine ⟨out1, out2, ho1, ho2, hl1, hl2, ?_, ?_, ?_⟩
    · intro n x hn
      exact ⟨_, gainAfter_of_precompute c p wave (n + 1) hp, hf1 n x hn⟩
    · exact outputs_agree
        (fun n x => toI16
          ((x * ((iter c p wave (n + 1) (initState c)).current_gain : Int)) >>> c.SHIFT))
        xs ys out1 out2 hlen hl1 hl2 hf1 hf2
    · intro k v hv
      have hx3 : ∀ x ∈ xs.set k v, fitsInt16 x := by
        intro x hm
        rcases List.mem_or_eq_of_mem_set hm with h | h
        · exact hx x h
        · rw [h]; exact hv
      obtain ⟨out3, ho3, hl3, hf3⟩ := process_typed c p wave (xs.set k v) hp hs hx3
      refine ⟨out3, ho3, ?_⟩
      intro n hn
      exact outputs_agree
        (fun n x => toI16
          ((x * ((iter c p wave (n + 1) (initState c)).current_gain : Int)) >>> c.SHIFT))
        (xs.set k v) xs out3 out1 (by simp) hl3 hl1 hf3 hf1 n
        (List.getElem?_set_ne (Ne.symm hn))

/-- Witness for C14: the source's constants, the triangle selector and the two buffers
`[-50, -49, -48]` and `[-50, 7, -48]`, which agree at indices 0 and 2. -/
theorem C14_gain_independent_of_audio_witness :
    states sourceConfig WAVE_TRIANGLE [-50, -49, -48]
      = states sourceConfig WAVE_TRIANGLE [-50, 7, -48] ∧
    process sourceConfig WAVE_TRIANGLE [-50, -49, -48] = some [-13, -13, -13] ∧
    process sourceConfig WAVE_TRIANGLE [-50, 7, -48] = some [-13, 1, -13] :=
  ⟨(C14_gain_independent_of_audio sourceConfig sourceParams WAVE_TRIANGLE
      [-50, -49, -48] [-50, 7, -48] (by decide) (by decide) (by decide) (by decide)
      (by decide)).1, by decide, by decide⟩

/-! ## The program as written -/

theorem audio_in_typed : ∀ x ∈ audio_in, fitsInt16 x := by
  intro x hx
  unfold audio_in at hx
  obtain ⟨i, _, rfl⟩ := List.mem_map.mp hx
  unfold fitsInt16 INT16_MIN INT16_MAX toI16
  omega

theorem audio_in_getElem (n : Nat) (hn : n < 48000) :
    audio_in[n]? = some (toI16 ((n : Int) % 100 - 50)) := by
  unfold audio_in NUM_SAMPLES
  rw [List.getElem?_map, List.getElem?_range hn]
  rfl

theorem audio_out_getElem :
    ∃ out, audio_out = some out ∧ out.length = 48000 ∧
      ∀ n : Nat, n < 48000 →
        out[n]? = some (toI16
          ((toI16 ((n : Int) % 100 - 50) * (triangleProfile (n + 1) : Int)) >>> (8 : Nat))) := by
  obtain ⟨out, h1, h2, h3⟩ := process_typed sourceConfig sourceParams WAVE_TRIANGLE audio_in
    precompute_source (by decide) audio_in_typed
  refine ⟨out, h1, ?_, ?_⟩
  · rw [h2]; simp [audio_in, NUM_SAMPLES]
  · intro n hn
    rw [h3 n _ (audio_in_getElem n hn)]
    have hg := (sourceState_triangle (n + 1)).1
    unfold sourceState at hg
    rw [hg]
    rfl

/-- C17. The program as written (triangle selector, ramp input
`audio_in[i] = (i mod 100) - 50`, the constants of the file, arithmetic right shift)
computes `audio_out[n] = floor ((n - 50) * (65 + n) / 256)` for every `n < 20`, and the
twenty values it prints are `-13` eight times, `-12` seven times and `-11` five times. -/
theorem C17_printed_values :
    printed = some [-13, -13, -13, -13, -13, -13, -13, -13, -12, -12, -12, -12, -12, -12, -12,
      -11, -11, -11, -11, -11] ∧
    (∃ out, audio_out = some out ∧ out.length = NUM_SAMPLES ∧
      ∀ n : Nat, n < 20 →
        out[n]? = some (Int.fdiv (((n : Int) - 50) * (65 + (n : Int))) 256)) := by
  obtain ⟨out, h1, h2, h3⟩ := audio_out_getElem
  have hF : ∀ n : Nat, n < 20 →
      toI16 ((toI16 ((n : Int) % 100 - 50) * (triangleProfile (n + 1) : Int)) >>> (8 : Nat))
        = Int.fdiv (((n : Int) - 50) * (65 + (n : Int))) 256 := by
    decide
  have hL : ∀ n : Nat, n < 20 →
      ([-13, -13, -13, -13, -13, -13, -13, -13, -12, -12, -12, -12, -12, -12, -12,
        -11, -11, -11, -11, -11] : List Int)[n]?
        = some (Int.fdiv (((n : Int) - 50) * (65 + (n : Int))) 256) := by
    decide
  refine ⟨?_, out, h1, h2, ?_⟩
  · unfold printed
    rw [h1]
    refine congrArg some (List.ext_getElem? ?_)
    intro n
    by_cases hn : n < 20
    · rw [List.getElem?_take_of_lt hn, h3 n (by omega), hF n hn, hL n hn]
    · rw [List.getElem?_take_eq_none (by omega), List.getElem?_eq_none (by simp; omega)]
  · intro n hn
    rw [h3 n (by omega), hF n hn]

end Tremolo
